import Mathlib

/-!
Shallow embedding of the collaborative-wishlist backend
(`routes/wishlists.js`, `routes/products.js`, `models/Wishlist.js`,
`models/Product.js`).

Identifiers (Mongo ObjectIds compared in the source via `toString()`
equality) are modelled as `Nat`.  Fields that no claim mentions
(currency, category, brand, image/product URLs, tags, timestamps,
status, purchaser) are omitted from the records; every field a claim
touches is carried.  Prices are non-negative numbers (`price: Number,
min: 0` in the schema) modelled as `Nat`; an absent price is `none`.
-/

/-- Route outcomes live in `Except`; equality of concrete outcomes is
decidable componentwise. -/
instance {ε α : Type} [DecidableEq ε] [DecidableEq α] :
    DecidableEq (Except ε α) := fun x y =>
  match x, y with
  | .error e, .error f =>
    if h : e = f then isTrue (h ▸ rfl)
    else isFalse (fun c => h (Except.error.inj c))
  | .ok a, .ok b =>
    if h : a = b then isTrue (h ▸ rfl)
    else isFalse (fun c => h (Except.ok.inj c))
  | .error _, .ok _ => isFalse (fun c => Except.noConfusion c)
  | .ok _, .error _ => isFalse (fun c => Except.noConfusion c)

namespace WishlistApp

/-- A user identifier (Mongo ObjectId, compared by string equality in the
source). -/
abbrev UserId := Nat

/-- Collaborator roles, `enum: ['viewer', 'editor', 'admin']` in
`models/Wishlist.js`. -/
inductive Role where
  | viewer
  | editor
  | admin
deriving DecidableEq, Repr

/-- One entry of `wishlist.collaborators`: `{ user, role, joinedAt }`
(the timestamp plays no part in any route's logic and is omitted). -/
structure Collab where
  user : UserId
  role : Role
deriving DecidableEq, Repr

/-- The eight reaction emojis of `reactionSchema`'s
`enum: [heart, thumbsUp, thumbsDown, heartEyes, thinking, moneyBag, fire, star]`. -/
inductive Emoji where
  | heart
  | thumbsUp
  | thumbsDown
  | heartEyes
  | thinking
  | moneyBag
  | fire
  | star
deriving DecidableEq, Repr

/-- One entry of `product.comments`: `{ user, text, createdAt }`. -/
structure Comment where
  user : UserId
  text : String
deriving DecidableEq, Repr

/-- One entry of `product.reactions`: `{ user, emoji, createdAt }`. -/
structure Reaction where
  user : UserId
  emoji : Emoji
deriving DecidableEq, Repr

/-- A document of the `Product` collection (`models/Product.js`). -/
structure Product where
  id : Nat
  name : String
  price : Option Nat
  wishlist : Nat
  addedBy : UserId
  comments : List Comment
  reactions : List Reaction
deriving DecidableEq, Repr

/-- A document of the `Wishlist` collection (`models/Wishlist.js`):
`products` holds ObjectId references into the `Product` collection. -/
structure Wishlist where
  id : Nat
  owner : UserId
  collaborators : List Collab
  products : List Nat
  isPublic : Bool
  inviteCode : Option String
  totalValue : Nat
deriving DecidableEq, Repr

/-- The error kinds the routes surface: 404, 403, 400 (already-joined
conflict), 400 (schema validation failure on save). -/
inductive ApiError where
  | notFound
  | accessDenied
  | conflict
  | validation
deriving DecidableEq, Repr

/-- The `hasAccess` check repeated verbatim in `GET /api/wishlists/:id`,
`GET /api/products/wishlist/:wishlistId`, `POST /api/products/:id/comments`
and `POST /api/products/:id/reactions`:
owner, or any collaborator (any role), or public. -/
def hasViewAccess (w : Wishlist) (a : UserId) : Bool :=
  w.owner == a || w.collaborators.any (fun c => c.user == a) || w.isPublic

/-- The `canAdd` check of `POST /api/products`: owner, or collaborator with
role in `['editor', 'admin']`. -/
def canAddProduct (w : Wishlist) (a : UserId) : Bool :=
  w.owner == a ||
    w.collaborators.any (fun c =>
      c.user == a && decide (c.role = Role.editor ∨ c.role = Role.admin))

/-- The `canEdit` check of `PUT /api/products/:id`: owner, or the product's
creator (`addedBy`), or collaborator with role in `['editor', 'admin']`. -/
def canEditProduct (w : Wishlist) (p : Product) (a : UserId) : Bool :=
  w.owner == a || p.addedBy == a ||
    w.collaborators.any (fun c =>
      c.user == a && decide (c.role = Role.editor ∨ c.role = Role.admin))

/-- The `canDelete` check of `DELETE /api/products/:id`: owner, or the
product's creator, or collaborator with role in `['admin']`. -/
def canDeleteProduct (w : Wishlist) (p : Product) (a : UserId) : Bool :=
  w.owner == a || p.addedBy == a ||
    w.collaborators.any (fun c => c.user == a && decide (c.role = Role.admin))

/-- The `isOwner || isAdmin` check of `PUT /api/wishlists/:id` and
`POST /api/wishlists/:id/invite`. -/
def canMutateWishlist (w : Wishlist) (a : UserId) : Bool :=
  w.owner == a ||
    w.collaborators.any (fun c => c.user == a && decide (c.role = Role.admin))

/-- `wishlistSchema.methods.calculateTotalValue`: populate the product
references and sum `product.price || 0` over them (a reference that
resolves to no stored product contributes nothing). -/
def calcTotalValue (w : Wishlist) (store : List Product) : Nat :=
  (w.products.map (fun pid =>
    match store.find? (fun p => p.id == pid) with
    | some p => p.price.getD 0
    | none => 0)).sum

/-! ## Route operations

Each route is embedded as a function from the state it loads to either an
`ApiError` (the 4xx response it sends) or the state it persists.  An error
result carries no state: the source returns before any `save()` /
`findByIdAndUpdate` / `deleteMany`, so the stored documents are unchanged. -/

/-- `GET /api/wishlists/:id` after the wishlist is found: the access gate. -/
def getWishlistOp (w : Wishlist) (a : UserId) : Except ApiError Wishlist :=
  if hasViewAccess w a then .ok w else .error .accessDenied

/-- `GET /api/products/wishlist/:wishlistId` after the wishlist is found:
the access gate, then `Product.find({ wishlist: id })`. -/
def getProductsOp (w : Wishlist) (store : List Product) (a : UserId) :
    Except ApiError (List Product) :=
  if hasViewAccess w a then .ok (store.filter (fun p => p.wishlist == w.id))
  else .error .accessDenied

/-- `POST /api/products/:id/comments` on the found product and its populated
wishlist: the access gate, then `comments.push({ user, text })` and `save()`
(which enforces `required: true` and `maxlength: 500` on the text). -/
def addCommentOp (w : Wishlist) (p : Product) (a : UserId) (text : String) :
    Except ApiError Product :=
  if hasViewAccess w a then
    if text ≠ "" ∧ text.length ≤ 500 then
      .ok { p with comments := p.comments ++ [⟨a, text⟩] }
    else .error .validation
  else .error .accessDenied

/-- The reaction update of `POST /api/products/:id/reactions`: filter out
every existing reaction whose `user` is the actor, then push the new one. -/
def addReactionPure (p : Product) (a : UserId) (e : Emoji) : Product :=
  { p with reactions := p.reactions.filter (fun r => r.user != a) ++ [⟨a, e⟩] }

/-- `POST /api/products/:id/reactions` on the found product and its populated
wishlist: the access gate, then the replace-style reaction update. -/
def addReactionOp (w : Wishlist) (p : Product) (a : UserId) (e : Emoji) :
    Except ApiError Product :=
  if hasViewAccess w a then .ok (addReactionPure p a e) else .error .accessDenied

/-- The reaction update of `DELETE /api/products/:id/reactions`: keep only
the reactions whose `user` is not the actor. -/
def removeReactionPure (p : Product) (a : UserId) : Product :=
  { p with reactions := p.reactions.filter (fun r => r.user != a) }

/-- `DELETE /api/products/:id/reactions` on the found product.  The route
never loads the wishlist (`findById` without `populate('wishlist')`) and
performs no access check of any kind: the operation does not even take a
wishlist argument, and it always succeeds. -/
def removeReactionOp (p : Product) (a : UserId) : Except ApiError Product :=
  .ok (removeReactionPure p a)

/-- The updatable product fields of `PUT /api/products/:id`: the request
body is passed straight to `findByIdAndUpdate`, so every schema field can
appear, embedded `comments` and `reactions` included.  `none` means the
field is absent from the body.  (Schema fields no claim touches are
omitted, as in `Product`.) -/
structure ProductUpdates where
  name : Option String := none
  price : Option Nat := none
  wishlist : Option Nat := none
  addedBy : Option UserId := none
  comments : Option (List Comment) := none
  reactions : Option (List Reaction) := none
deriving DecidableEq, Repr

/-- The two `delete updates.wishlist; delete updates.addedBy` statements of
`PUT /api/products/:id`. -/
def sanitizeUpdates (u : ProductUpdates) : ProductUpdates :=
  { u with wishlist := none, addedBy := none }

/-- `findByIdAndUpdate(id, updates)`: each field present in the update
object overwrites the stored one ($set semantics); absent fields keep their
stored value. -/
def applyUpdates (p : Product) (u : ProductUpdates) : Product :=
  { p with
    name := u.name.getD p.name
    price := match u.price with | some v => some v | none => p.price
    wishlist := u.wishlist.getD p.wishlist
    addedBy := u.addedBy.getD p.addedBy
    comments := u.comments.getD p.comments
    reactions := u.reactions.getD p.reactions }

/-- `POST /api/products` on the found wishlist: the `canAdd` gate, then
`product.save()`, `wishlist.products.push(product._id)`,
`wishlist.calculateTotalValue()` (against the store that already holds the
new product), `wishlist.save()`. -/
def addProductOp (w : Wishlist) (store : List Product) (a : UserId)
    (newId : Nat) (name : String) (price : Option Nat) :
    Except ApiError (Wishlist × List Product) :=
  if canAddProduct w a then
    let p : Product :=
      { id := newId, name := name, price := price, wishlist := w.id,
        addedBy := a, comments := [], reactions := [] }
    let store' := store ++ [p]
    let w' := { w with products := w.products ++ [newId] }
    .ok ({ w' with totalValue := calcTotalValue w' store' }, store')
  else .error .accessDenied

/-- `PUT /api/products/:id`: find the product, the `canEdit` gate, sanitize
and apply the body via `findByIdAndUpdate`, then recalculate the populated
wishlist's total against the updated store and save it. -/
def updateProductOp (w : Wishlist) (store : List Product) (a : UserId)
    (pid : Nat) (u : ProductUpdates) :
    Except ApiError (Wishlist × List Product) :=
  match store.find? (fun p => p.id == pid) with
  | none => .error .notFound
  | some p =>
    if canEditProduct w p a then
      let store' := store.map (fun q =>
        if q.id == pid then applyUpdates q (sanitizeUpdates u) else q)
      .ok ({ w with totalValue := calcTotalValue w store' }, store')
    else .error .accessDenied

/-- `DELETE /api/products/:id`: find the product, the `canDelete` gate,
`wishlist.products.pull(product._id)`, `wishlist.calculateTotalValue()`
(the product document is still stored at this point — only the reference is
gone), `wishlist.save()`, then `Product.findByIdAndDelete`. -/
def deleteProductOp (w : Wishlist) (store : List Product) (a : UserId)
    (pid : Nat) : Except ApiError (Wishlist × List Product) :=
  match store.find? (fun p => p.id == pid) with
  | none => .error .notFound
  | some p =>
    if canDeleteProduct w p a then
      let w' := { w with products := w.products.filter (fun r => r != pid) }
      let w'' := { w' with totalValue := calcTotalValue w' store }
      .ok (w'', store.filter (fun q => q.id != pid))
    else .error .accessDenied

/-- `DELETE /api/wishlists/:id`: only the owner passes; then
`Product.deleteMany({ wishlist: id })` and the wishlist document is removed.
The result is the surviving product store. -/
def deleteWishlistOp (w : Wishlist) (store : List Product) (a : UserId) :
    Except ApiError (List Product) :=
  if w.owner == a then .ok (store.filter (fun p => p.wishlist != w.id))
  else .error .accessDenied

/-- `POST /api/wishlists`: a fresh wishlist owned by the creator;
`generateInviteCode()` is called exactly when the request sets `isPublic`.
`fresh` stands for the random token `generateInviteCode` produces. -/
def createWishlist (wid : Nat) (owner : UserId) (pub : Bool)
    (fresh : String) : Wishlist :=
  { id := wid, owner := owner, collaborators := [], products := [],
    isPublic := pub, inviteCode := if pub then some fresh else none,
    totalValue := 0 }

/-- The updatable wishlist fields of `PUT /api/wishlists/:id` that bear on
the invite code: only `isPublic` does (title, description and tags never
touch it and are omitted). -/
structure WishlistUpdates where
  isPublic : Option Bool := none
deriving DecidableEq, Repr

/-- `PUT /api/wishlists/:id`: the `isOwner || isAdmin` gate, then if the
body carries `isPublic` it is stored, and a fresh invite code is generated
exactly when the new value is truthy and no code exists yet
(`if (isPublic && !wishlist.inviteCode)`).  Nothing ever clears the code. -/
def updateWishlistOp (w : Wishlist) (a : UserId) (u : WishlistUpdates)
    (fresh : String) : Except ApiError Wishlist :=
  if canMutateWishlist w a then
    match u.isPublic with
    | none => .ok w
    | some b =>
      .ok { w with
        isPublic := b
        inviteCode :=
          if b ∧ w.inviteCode = none then some fresh else w.inviteCode }
  else .error .accessDenied

/-- `POST /api/wishlists/:id/invite`: the `isOwner || isAdmin` gate, then
`generateInviteCode()` overwrites the code with a fresh token and saves. -/
def generateInviteOp (w : Wishlist) (a : UserId) (fresh : String) :
    Except ApiError Wishlist :=
  if canMutateWishlist w a then .ok { w with inviteCode := some fresh }
  else .error .accessDenied

/-- The join update applied to the wishlist `findOne({ inviteCode })`
returned: conflict if the actor is already a collaborator or the owner,
otherwise `collaborators.push({ user, role: 'editor' })`. -/
def joinSingleOp (w : Wishlist) (a : UserId) : Except ApiError Wishlist :=
  if w.collaborators.any (fun c => c.user == a) || w.owner == a then
    .error .conflict
  else .ok { w with collaborators := w.collaborators ++ [⟨a, Role.editor⟩] }

/-- `POST /api/wishlists/join/:inviteCode` over the whole wishlist store:
`findOne({ inviteCode: code })` resolves to the first wishlist carrying the
code (404 if none), and only that document is updated and saved. -/
def joinOp : List Wishlist → String → UserId → Except ApiError (List Wishlist)
  | [], _, _ => .error .notFound
  | w :: rest, code, a =>
    if w.inviteCode == some code then
      match joinSingleOp w a with
      | .ok w' => .ok (w' :: rest)
      | .error e => .error e
    else
      match joinOp rest code a with
      | .ok rest' => .ok (w :: rest')
      | .error e => .error e

/-- The wishlist states reachable through the four code-bearing operations,
instrumented with two history flags: `g` records whether any
code-generating event ever occurred (creation as public, a visibility flip
to public without an existing code, or the explicit generate-invite
action), and `e` records whether the explicit generate-invite action ever
occurred. -/
inductive Reach : Wishlist → Bool → Bool → Prop where
  | create (wid : Nat) (owner : UserId) (pub : Bool) (fresh : String) :
      Reach (createWishlist wid owner pub fresh) pub false
  | update {w : Wishlist} {g e : Bool} (a : UserId) (u : WishlistUpdates)
      (fresh : String) {w' : Wishlist} :
      Reach w g e → updateWishlistOp w a u fresh = .ok w' →
      Reach w' (g || (u.isPublic == some true && w.inviteCode == none)) e
  | genInvite {w : Wishlist} {g e : Bool} (a : UserId) (fresh : String)
      {w' : Wishlist} :
      Reach w g e → generateInviteOp w a fresh = .ok w' →
      Reach w' true true
  | joinStep {w : Wishlist} {g e : Bool} (a : UserId) {w' : Wishlist} :
      Reach w g e → joinSingleOp w a = .ok w' →
      Reach w' g e

/-- The state a wishlist created public (implicit code "abc") reaches after
its owner flips it back to private: the code survives the flip. -/
def flippedPrivate : Wishlist :=
  { id := 1, owner := 0, collaborators := [], products := [],
    isPublic := false, inviteCode := some "abc", totalValue := 0 }

/-- A stored product carrying one comment, by user 9. -/
def pWithComment : Product :=
  { id := 7, name := "a", price := none, wishlist := 0, addedBy := 1,
    comments := [⟨9, "hi"⟩], reactions := [] }

/-! ## Shared lemmas -/

/-- The collaborator-membership test of the routes, in propositional form. -/
theorem any_user_eq_iff (l : List Collab) (a : UserId) :
    l.any (fun c => c.user == a) = true ↔ ∃ c ∈ l, c.user = a := by
  simp [List.any_eq_true]

/-- `hasViewAccess` computes exactly the spec's three-way disjunction. -/
theorem hasViewAccess_iff (w : Wishlist) (a : UserId) :
    hasViewAccess w a = true ↔
      (w.owner = a ∨ (∃ c ∈ w.collaborators, c.user = a) ∨ w.isPublic = true) := by
  simp [hasViewAccess, List.any_eq_true, or_assoc]

/-- `canDeleteProduct` computes exactly owner-or-creator-or-admin. -/
theorem canDeleteProduct_iff (w : Wishlist) (p : Product) (a : UserId) :
    canDeleteProduct w p a = true ↔
      (w.owner = a ∨ p.addedBy = a ∨
        ∃ c ∈ w.collaborators, c.user = a ∧ c.role = Role.admin) := by
  simp [canDeleteProduct, List.any_eq_true, or_assoc]

/-- The already-joined test of the join route, in propositional form. -/
theorem already_joined_iff (w : Wishlist) (a : UserId) :
    (w.collaborators.any (fun c => c.user == a) || w.owner == a) = true ↔
      (w.owner = a ∨ ∃ c ∈ w.collaborators, c.user = a) := by
  simp [List.any_eq_true]
  exact or_comm

/-- If no stored wishlist carries the code, the join route answers 404. -/
theorem joinOp_of_find_none (store : List Wishlist) (code : String)
    (a : UserId)
    (h : store.find? (fun x => x.inviteCode == some code) = none) :
    joinOp store code a = .error .notFound := by
  induction store with
  | nil => rfl
  | cons v rest ih =>
    by_cases hc : (v.inviteCode == some code) = true
    · simp [List.find?_cons, hc] at h
    · have hc' : (v.inviteCode == some code) = false := by simpa using hc
      simp only [List.find?_cons, hc'] at h
      simp [joinOp, hc', ih h]

/-- If the first wishlist carrying the code already lists the actor (as
collaborator or owner), the join route answers the conflict error. -/
theorem joinOp_conflict (store : List Wishlist) (code : String) (a : UserId)
    (w : Wishlist)
    (hfind : store.find? (fun x => x.inviteCode == some code) = some w)
    (halready :
      (w.collaborators.any (fun c => c.user == a) || w.owner == a) = true) :
    joinOp store code a = .error .conflict := by
  induction store with
  | nil => exact absurd hfind (by simp)
  | cons v rest ih =>
    by_cases hc : (v.inviteCode == some code) = true
    · simp only [List.find?_cons, hc] at hfind
      cases hfind
      simp [joinOp, hc, joinSingleOp, halready]
    · have hc' : (v.inviteCode == some code) = false := by simpa using hc
      simp only [List.find?_cons, hc'] at hfind
      simp [joinOp, hc', ih hfind]

/-- Otherwise the join route appends exactly one `{ user, role: editor }`
entry to the found wishlist's collaborators and stores nothing else. -/
theorem joinOp_success (store : List Wishlist) (code : String) (a : UserId)
    (w : Wishlist)
    (hfind : store.find? (fun x => x.inviteCode == some code) = some w)
    (hnot :
      (w.collaborators.any (fun c => c.user == a) || w.owner == a) = false) :
    ∃ pre post, store = pre ++ w :: post ∧
      joinOp store code a = .ok (pre ++
        { w with collaborators :=
            w.collaborators ++ [⟨a, Role.editor⟩] } :: post) := by
  induction store with
  | nil => exact absurd hfind (by simp)
  | cons v rest ih =>
    by_cases hc : (v.inviteCode == some code) = true
    · simp only [List.find?_cons, hc] at hfind
      cases hfind
      exact ⟨[], rest, rfl, by simp [joinOp, hc, joinSingleOp, hnot]⟩
    · have hc' : (v.inviteCode == some code) = false := by simpa using hc
      simp only [List.find?_cons, hc'] at hfind
      obtain ⟨pre, post, hst, hjoin⟩ := ih hfind
      exact ⟨v :: pre, post, by rw [hst]; rfl, by simp [joinOp, hc', hjoin]⟩

/-- A successful join immediately followed by the same actor joining with
the same code hits the conflict branch. -/
theorem joinOp_twice (store : List Wishlist) (code : String) (a : UserId)
    (s' : List Wishlist) (h : joinOp store code a = .ok s') :
    joinOp s' code a = .error .conflict := by
  induction store generalizing s' with
  | nil => exact absurd h (by simp [joinOp])
  | cons v rest ih =>
    by_cases hc : (v.inviteCode == some code) = true
    · by_cases ha :
        (v.collaborators.any (fun c => c.user == a) || v.owner == a) = true
      · simp [joinOp, hc, joinSingleOp, ha] at h
      · have ha' :
          (v.collaborators.any (fun c => c.user == a) || v.owner == a)
            = false := by simpa using ha
        simp [joinOp, hc, joinSingleOp, ha'] at h
        subst h
        simp [joinOp, hc, joinSingleOp]
    · have hc' : (v.inviteCode == some code) = false := by simpa using hc
      cases hr : joinOp rest code a with
      | error e => simp [joinOp, hc', hr] at h
      | ok rest' =>
        simp [joinOp, hc', hr] at h
        subst h
        simp [joinOp, hc', ih rest' hr]

/-! ## Claim theorems -/

/-- C1: the read operations (get single wishlist, list products of a
wishlist) and the view-access gate on adding comments and reactions grant
access iff the actor is the owner, or appears in the collaborators with any
role, or the wishlist is public; when none of the three disjuncts holds the
request is denied with the authorization error (and, the error carrying no
state, nothing is persisted). -/
theorem view_access_gate (w : Wishlist) (a : UserId) :
    (hasViewAccess w a = true ↔
      (w.owner = a ∨ (∃ c ∈ w.collaborators, c.user = a) ∨ w.isPublic = true))
    ∧ (getWishlistOp w a = .error .accessDenied ↔ hasViewAccess w a = false)
    ∧ (hasViewAccess w a = true → getWishlistOp w a = .ok w)
    ∧ (∀ store, getProductsOp w store a = .error .accessDenied ↔
        hasViewAccess w a = false)
    ∧ (∀ p t, addCommentOp w p a t = .error .accessDenied ↔
        hasViewAccess w a = false)
    ∧ (∀ p e, addReactionOp w p a e = .error .accessDenied ↔
        hasViewAccess w a = false) := by
  refine ⟨hasViewAccess_iff w a, ?_, ?_, ?_, ?_, ?_⟩
  · cases h : hasViewAccess w a <;> simp [getWishlistOp, h]
  · intro h; simp [getWishlistOp, h]
  · intro store; cases h : hasViewAccess w a <;> simp [getProductsOp, h]
  · intro p t; cases h : hasViewAccess w a <;> simp [addCommentOp, h]
    split <;> simp
  · intro p e; cases h : hasViewAccess w a <;> simp [addReactionOp, h]

/-- C1 witness: a viewer-role collaborator reads a private wishlist. -/
theorem view_access_gate_witness :
    getWishlistOp ⟨0, 1, [⟨2, Role.viewer⟩], [], false, none, 0⟩ 2
      = .ok ⟨0, 1, [⟨2, Role.viewer⟩], [], false, none, 0⟩ :=
  (view_access_gate ⟨0, 1, [⟨2, Role.viewer⟩], [], false, none, 0⟩ 2).2.2.1
    (by decide)

/-- C2: an editor-role collaborator who is neither the owner nor the
product's creator passes the add- and edit-product checks but fails the
delete-product check (the route answers the authorization error); an
admin-role collaborator passes the delete check; and in general
`canDelete` holds exactly for the owner, the creator (`addedBy`), or an
admin-role collaborator. -/
theorem product_role_asymmetry (w : Wishlist) (p : Product) (a : UserId)
    (h1 : Collab.mk a Role.editor ∈ w.collaborators)
    (h2 : ∀ c ∈ w.collaborators, c.user = a → c.role = Role.editor)
    (h3 : w.owner ≠ a) (h4 : p.addedBy ≠ a) :
    canAddProduct w a = true ∧ canEditProduct w p a = true ∧
    canDeleteProduct w p a = false ∧
    deleteProductOp w [p] a p.id = .error .accessDenied ∧
    (∀ w₂ : Wishlist, Collab.mk a Role.admin ∈ w₂.collaborators →
      canDeleteProduct w₂ p a = true) ∧
    (∀ (w' : Wishlist) (p' : Product) (a' : UserId),
      canDeleteProduct w' p' a' = true ↔
        (w'.owner = a' ∨ p'.addedBy = a' ∨
          ∃ c ∈ w'.collaborators, c.user = a' ∧ c.role = Role.admin)) := by
  have hdel : canDeleteProduct w p a = false := by
    cases hb : canDeleteProduct w p a
    · rfl
    · exfalso
      rcases (canDeleteProduct_iff w p a).mp hb with h | h | ⟨c, hc, hcu, hcr⟩
      · exact h3 h
      · exact h4 h
      · rw [h2 c hc hcu] at hcr
        exact absurd hcr (by decide)
  refine ⟨?_, ?_, hdel, ?_, ?_, canDeleteProduct_iff⟩
  · simp [canAddProduct, List.any_eq_true]
    exact Or.inr ⟨⟨a, Role.editor⟩, h1, rfl, Or.inl rfl⟩
  · simp [canEditProduct, List.any_eq_true]
    exact Or.inr ⟨⟨a, Role.editor⟩, h1, rfl, Or.inl rfl⟩
  · simp [deleteProductOp, List.find?, hdel]
  · intro w₂ hmem
    rw [canDeleteProduct_iff]
    exact Or.inr (Or.inr ⟨⟨a, Role.admin⟩, hmem, rfl, rfl⟩)

/-- C2 witness: collaborator 2 holds role editor on a wishlist owned by 1,
product 5 was created by 3, and 2's delete attempt fails the check. -/
theorem product_role_asymmetry_witness :
    canDeleteProduct ⟨0, 1, [⟨2, Role.editor⟩], [5], false, none, 0⟩
      ⟨5, "x", none, 0, 3, [], []⟩ 2 = false :=
  (product_role_asymmetry ⟨0, 1, [⟨2, Role.editor⟩], [5], false, none, 0⟩
    ⟨5, "x", none, 0, 3, [], []⟩ 2
    (by decide) (by decide) (by decide) (by decide)).2.2.1

/-- C3: joining by invite code answers 404 when no wishlist carries the
code; answers the conflict error when the first wishlist carrying it
already has the actor as owner or collaborator (persisting nothing — the
error branch returns before `save()`); otherwise appends exactly the one
entry `{ user: actor, role: editor }` to that wishlist's collaborators,
leaving every other stored wishlist untouched; and a second join by the
same actor with the same code after a successful one answers the conflict
error. -/
theorem join_protocol (store : List Wishlist) (code : String) (a : UserId) :
    (store.find? (fun x => x.inviteCode == some code) = none →
      joinOp store code a = .error .notFound)
    ∧ (∀ w, store.find? (fun x => x.inviteCode == some code) = some w →
        ((w.owner = a ∨ ∃ c ∈ w.collaborators, c.user = a) →
          joinOp store code a = .error .conflict)
        ∧ (¬(w.owner = a ∨ ∃ c ∈ w.collaborators, c.user = a) →
          ∃ pre post, store = pre ++ w :: post ∧
            joinOp store code a = .ok (pre ++
              { w with collaborators :=
                  w.collaborators ++ [⟨a, Role.editor⟩] } :: post)))
    ∧ (∀ s', joinOp store code a = .ok s' →
        joinOp s' code a = .error .conflict) := by
  refine ⟨joinOp_of_find_none store code a, ?_, joinOp_twice store code a⟩
  intro w hfind
  constructor
  · intro hmem
    exact joinOp_conflict store code a w hfind
      ((already_joined_iff w a).mpr hmem)
  · intro hmem
    refine joinOp_success store code a w hfind ?_
    cases hb : (w.collaborators.any (fun c => c.user == a) || w.owner == a)
    · rfl
    · exact absurd ((already_joined_iff w a).mp hb) hmem

/-- Deleting the product documents with one id leaves every lookup of a
different id unchanged. -/
theorem find?_filter_id (store : List Product) (pid r : Nat) (h : r ≠ pid) :
    (store.filter (fun q => q.id != pid)).find? (fun p => p.id == r)
      = store.find? (fun p => p.id == r) := by
  induction store with
  | nil => rfl
  | cons q rest ih =>
    by_cases hq : (q.id == r) = true
    · have hr : q.id = r := by simpa using hq
      have hkeep : (q.id != pid) = true := by simp [bne_iff_ne, hr, h]
      simp [List.filter_cons, hkeep, List.find?_cons, hq]
    · have hq' : (q.id == r) = false := by simpa using hq
      by_cases hp : (q.id != pid) = true
      · simp [List.filter_cons, hp, List.find?_cons, hq', ih]
      · have hp' : (q.id != pid) = false := by simpa using hp
        simp [List.filter_cons, hp', List.find?_cons, hq', ih]

/-- When none of a wishlist's product references carries the deleted id,
recomputing the total before or after the document deletion agrees. -/
theorem calcTotalValue_filter (w : Wishlist) (store : List Product)
    (pid : Nat) (h : ∀ r ∈ w.products, r ≠ pid) :
    calcTotalValue w (store.filter (fun q => q.id != pid))
      = calcTotalValue w store := by
  unfold calcTotalValue
  congr 1
  apply List.map_congr_left
  intro r hr
  rw [find?_filter_id store pid r (h r hr)]

/-- C3 witness: actor 5 joins wishlist 0 (owner 1, code "c") once
successfully; the immediate second attempt hits the conflict branch. -/
theorem join_protocol_witness :
    joinOp [⟨0, 1, [⟨5, Role.editor⟩], [], true, some "c", 0⟩] "c" 5
      = .error .conflict :=
  (join_protocol [⟨0, 1, [], [], true, some "c", 0⟩] "c" 5).2.2
    [⟨0, 1, [⟨5, Role.editor⟩], [], true, some "c", 0⟩] (by decide)

/-- C4: after any successful add-product, update-product or delete-product
operation, the persisted wishlist's `totalValue` equals the sum over its
referenced products of the product's price, a missing price contributing
0 (for delete-product the source recomputes while the document still
exists but its reference is already pulled, which agrees with the sum over
the final store). -/
theorem total_value_recomputed (w : Wishlist) (store : List Product)
    (a : UserId) :
    (∀ nid nm pr w' s', addProductOp w store a nid nm pr = .ok (w', s') →
      w'.totalValue = calcTotalValue w' s')
    ∧ (∀ pid u w' s', updateProductOp w store a pid u = .ok (w', s') →
      w'.totalValue = calcTotalValue w' s')
    ∧ (∀ pid w' s', deleteProductOp w store a pid = .ok (w', s') →
      w'.totalValue = calcTotalValue w' s') := by
  refine ⟨?_, ?_, ?_⟩
  · intro nid nm pr w' s' h
    unfold addProductOp at h
    split at h
    · simp only [Except.ok.injEq, Prod.mk.injEq] at h
      obtain ⟨h1, h2⟩ := h
      subst h1; subst h2
      rfl
    · exact absurd h (by simp)
  · intro pid u w' s' h
    cases hfind : store.find? (fun p => p.id == pid) with
    | none =>
      simp only [updateProductOp, hfind] at h
      exact absurd h (by simp)
    | some p =>
      simp only [updateProductOp, hfind] at h
      by_cases hc : canEditProduct w p a = true
      · rw [if_pos hc] at h
        simp only [Except.ok.injEq, Prod.mk.injEq] at h
        obtain ⟨h1, h2⟩ := h
        subst h1; subst h2
        rfl
      · rw [if_neg hc] at h
        exact absurd h (by simp)
  · intro pid w' s' h
    cases hfind : store.find? (fun p => p.id == pid) with
    | none =>
      simp only [deleteProductOp, hfind] at h
      exact absurd h (by simp)
    | some p =>
      simp only [deleteProductOp, hfind] at h
      by_cases hc : canDeleteProduct w p a = true
      · rw [if_pos hc] at h
        simp only [Except.ok.injEq, Prod.mk.injEq] at h
        obtain ⟨h1, h2⟩ := h
        subst h1; subst h2
        refine Eq.symm (calcTotalValue_filter _ store pid ?_)
        intro r hr
        have hr' : r ∈ List.filter (fun x => x != pid) w.products := hr
        have : (r != pid) = true := (List.mem_filter.mp hr').2
        simpa [bne_iff_ne] using this
      · rw [if_neg hc] at h
        exact absurd h (by simp)

/-- After the route filters out an actor's reactions, none authored by
that actor survive. -/
theorem filter_reactions_ne_then_eq_nil (l : List Reaction) (a : UserId) :
    (l.filter (fun r => r.user != a)).filter (fun r => r.user == a) = [] := by
  rw [List.filter_filter]
  apply List.filter_eq_nil_iff.mpr
  intro r _
  by_cases h : (r.user == a) = true <;> simp [h, bne]

/-- Folding any nonempty sequence of add-reaction updates by one actor
ends in that actor's single reaction, carrying the last emoji, at the end
of the list. -/
theorem foldl_addReaction_split (p : Product) (a : UserId) (es : List Emoji)
    (hne : es ≠ []) :
    es.foldl (fun q e => addReactionPure q a e) p
      = addReactionPure (es.dropLast.foldl (fun q e => addReactionPure q a e) p)
          a (es.getLast hne) := by
  conv_lhs => rw [← List.dropLast_concat_getLast hne]
  rw [List.foldl_append]
  rfl

/-- C4 witness: the spec's example — products priced 10, none and 25 give
total 35; deleting the 25-priced product leaves total 10 (here product 2
has no price, so references [1, 2] sum to 10). -/
theorem total_value_recomputed_witness :
    (⟨0, 1, [], [1, 2], true, none, 10⟩ : Wishlist).totalValue
      = calcTotalValue ⟨0, 1, [], [1, 2], true, none, 10⟩
          [⟨1, "a", some 10, 0, 1, [], []⟩, ⟨2, "b", none, 0, 1, [], []⟩] :=
  (total_value_recomputed ⟨0, 1, [], [1, 2, 3], true, none, 45⟩
    [⟨1, "a", some 10, 0, 1, [], []⟩, ⟨2, "b", none, 0, 1, [], []⟩,
     ⟨3, "c", some 25, 0, 1, [], []⟩] 1).2.2 3
    ⟨0, 1, [], [1, 2], true, none, 10⟩
    [⟨1, "a", some 10, 0, 1, [], []⟩, ⟨2, "b", none, 0, 1, [], []⟩]
    (by decide)

/-- C5: for an actor with view access, every add-reaction call succeeds and
replaces: after any nonempty sequence of add-reaction calls by the actor,
exactly one reaction authored by the actor exists, its emoji is the last
call's argument, and it sits at the end of the reaction list; and
remove-reaction always succeeds — also when the actor has no reaction —
keeping exactly the other actors' reactions. -/
theorem reaction_replace_invariant (w : Wishlist) (p : Product) (a : UserId)
    (es : List Emoji) (hv : hasViewAccess w a = true) (hne : es ≠ []) :
    (∀ e, addReactionOp w p a e = .ok (addReactionPure p a e))
    ∧ ((es.foldl (fun q e => addReactionPure q a e) p).reactions.filter
        (fun r => r.user == a) = [⟨a, es.getLast hne⟩])
    ∧ (∃ pre, (es.foldl (fun q e => addReactionPure q a e) p).reactions
        = pre ++ [⟨a, es.getLast hne⟩] ∧ ∀ r ∈ pre, r.user ≠ a)
    ∧ (∀ q, removeReactionOp q a = .ok (removeReactionPure q a))
    ∧ (∀ q r, r ∈ (removeReactionPure q a).reactions ↔
        (r ∈ q.reactions ∧ r.user ≠ a)) := by
  refine ⟨?_, ?_, ?_, fun q => rfl, ?_⟩
  · intro e
    simp [addReactionOp, hv]
  · rw [foldl_addReaction_split p a es hne]
    show ((List.filter _ _) ++ [(⟨a, es.getLast hne⟩ : Reaction)]).filter _ = _
    rw [List.filter_append, filter_reactions_ne_then_eq_nil]
    simp
  · refine ⟨(es.dropLast.foldl (fun q e => addReactionPure q a e)
      p).reactions.filter (fun r => r.user != a),
      by rw [foldl_addReaction_split p a es hne]; rfl, ?_⟩
    intro r hr
    exact bne_iff_ne.mp (List.mem_filter.mp hr).2
  · intro q r
    simp [removeReactionPure, List.mem_filter, bne_iff_ne]

/-- C5 witness: actor 2 reacts heart then star on a product that already
holds actor 3's fire reaction; exactly one reaction by 2 remains and it is
the star. -/
theorem reaction_replace_invariant_witness :
    (([Emoji.heart, Emoji.star].foldl
        (fun q e => addReactionPure q 2 e)
        ⟨5, "x", none, 0, 3, [], [⟨3, Emoji.fire⟩]⟩).reactions.filter
      (fun r => r.user == 2)) = [⟨2, Emoji.star⟩] :=
  (reaction_replace_invariant ⟨0, 1, [], [5], true, none, 0⟩
    ⟨5, "x", none, 0, 3, [], [⟨3, Emoji.fire⟩]⟩ 2 [Emoji.heart, Emoji.star]
    (by decide) (by decide)).2.1

/-- C6: delete-wishlist succeeds exactly for the owner — an admin-role
collaborator who is not the owner is denied with the authorization error
and nothing changes — and after the owner's delete, no stored product
references the deleted wishlist's id. -/
theorem wishlist_delete_owner_only (w : Wishlist) (store : List Product)
    (a : UserId) :
    (a = w.owner → deleteWishlistOp w store a
      = .ok (store.filter (fun p => p.wishlist != w.id)))
    ∧ (∀ s', deleteWishlistOp w store a = .ok s' →
        ∀ p ∈ s', p.wishlist ≠ w.id)
    ∧ (a ≠ w.owner → deleteWishlistOp w store a = .error .accessDenied)
    ∧ (Collab.mk a Role.admin ∈ w.collaborators → a ≠ w.owner →
        deleteWishlistOp w store a = .error .accessDenied) := by
  have hden : a ≠ w.owner →
      deleteWishlistOp w store a = .error .accessDenied := by
    intro h
    have hb : (w.owner == a) = false := beq_eq_false_iff_ne.mpr (Ne.symm h)
    simp [deleteWishlistOp, hb]
  refine ⟨?_, ?_, hden, fun _ h => hden h⟩
  · intro h
    simp [deleteWishlistOp, h]
  · intro s' h p hp
    unfold deleteWishlistOp at h
    split at h
    · injection h with h1
      subst h1
      exact bne_iff_ne.mp (List.mem_filter.mp hp).2
    · exact absurd h (by simp)

/-- C6 witness: admin collaborator 2 cannot delete wishlist 0 owned by 1. -/
theorem wishlist_delete_owner_only_witness :
    deleteWishlistOp ⟨0, 1, [⟨2, Role.admin⟩], [1], false, none, 0⟩
      [⟨1, "a", none, 0, 1, [], []⟩] 2 = .error .accessDenied :=
  (wishlist_delete_owner_only ⟨0, 1, [⟨2, Role.admin⟩], [1], false, none, 0⟩
    [⟨1, "a", none, 0, 1, [], []⟩] 2).2.2.2 (by decide) (by decide)

/-- A wishlist reached without any code-generating event (creation as
public, flip to public without a code, or explicit generate-invite)
carries no invite code. -/
theorem reach_no_gen_no_code (w : Wishlist) (g e : Bool) (h : Reach w g e) :
    g = false → w.inviteCode = none := by
  induction h with
  | create wid owner pub fresh =>
    intro hg
    simp [createWishlist, hg]
  | update a u fresh hr hop ih =>
    intro hg
    rw [Bool.or_eq_false_iff] at hg
    obtain ⟨hg1, hg2⟩ := hg
    have hw := ih hg1
    unfold updateWishlistOp at hop
    split at hop
    · cases hu : u.isPublic with
      | none =>
        rw [hu] at hop
        injection hop with h1
        subst h1
        exact hw
      | some b =>
        rw [hu] at hop
        rw [hu] at hg2
        cases b with
        | true =>
          rw [hw] at hg2
          simp at hg2
        | false =>
          injection hop with h1
          subst h1
          simp [hw]
    · exact absurd hop (by simp)
  | genInvite a fresh hr hop ih =>
    intro hg
    exact absurd hg (by simp)
  | joinStep a hr hop ih =>
    intro hg
    have hw := ih hg
    unfold joinSingleOp at hop
    split at hop
    · exact absurd hop (by simp)
    · injection hop with h1
      subst h1
      exact hw

/-- C7 amended: through create-wishlist, update-wishlist, generate-invite
and join, an invite code is present only when some code-generating event
occurred in the wishlist's history — creation as public, a visibility flip
to public without an existing code, or the explicit generate-invite action;
the code is never removed, so (contrary to the claim as stated) a wishlist
flipped back to private keeps the code its public creation produced. -/
theorem invite_code_provenance (w : Wishlist) (e : Bool)
    (h : Reach w false e) : w.inviteCode = none :=
  reach_no_gen_no_code w false e h rfl

/-- C7 amended witness: a wishlist created private through the route keeps
no code. -/
theorem invite_code_provenance_witness :
    (createWishlist 1 0 false "x").inviteCode = none :=
  invite_code_provenance (createWishlist 1 0 false "x") false
    (Reach.create 1 0 false "x")

/-- C7 counterexample: wishlist 1 is created public (the route generates
code "abc" implicitly), then its owner flips `isPublic` to false; the
reached state is private, was never explicitly generated for
(second `Reach` flag false), yet still carries invite code "abc" — the
claim's "present only when public or explicitly generated" fails. -/
theorem invite_code_persists_when_private :
    Reach flippedPrivate true false ∧ flippedPrivate.isPublic = false ∧
      flippedPrivate.inviteCode = some "abc" := by
  refine ⟨?_, rfl, rfl⟩
  have h0 : Reach (createWishlist 1 0 true "abc") true false :=
    Reach.create 1 0 true "abc"
  have hop : updateWishlistOp (createWishlist 1 0 true "abc") 0
      ⟨some false⟩ "z" = .ok flippedPrivate := by decide
  have h1 := Reach.update 0 ⟨some false⟩ "z" h0 hop
  simpa using h1

/-- C8 counterexample: `PUT /api/products/:id` with a body carrying
`comments: []` passes `findByIdAndUpdate` untouched (only `wishlist` and
`addedBy` are stripped), so product 7's existing comment by user 9 is
erased by an operation of the API — comments are not append-only. -/
theorem update_body_rewrites_comments :
    updateProductOp ⟨0, 1, [], [7], true, none, 0⟩ [pWithComment] 1 7
        { comments := some [] }
      = .ok (⟨0, 1, [], [7], true, none, 0⟩, [⟨7, "a", none, 0, 1, [], []⟩])
    ∧ pWithComment.comments = [⟨9, "hi"⟩] :=
  ⟨by decide, rfl⟩

/-- C8 amended: every operation leaves a product's comments unchanged or
appends one entry at the end — except update-product, whose passthrough
body overwrites the whole comments list exactly when it carries a
`comments` field (and leaves it unchanged when it does not). -/
theorem comments_append_only_except_update (w : Wishlist) (p : Product)
    (a : UserId) (t : String) (e : Emoji) (u : ProductUpdates) :
    (∀ p', addCommentOp w p a t = .ok p' →
      p'.comments = p.comments ++ [⟨a, t⟩])
    ∧ ((addReactionPure p a e).comments = p.comments)
    ∧ ((removeReactionPure p a).comments = p.comments)
    ∧ (u.comments = none →
      (applyUpdates p (sanitizeUpdates u)).comments = p.comments)
    ∧ (∀ l, u.comments = some l →
      (applyUpdates p (sanitizeUpdates u)).comments = l) := by
  refine ⟨?_, rfl, rfl, ?_, ?_⟩
  · intro p' h
    unfold addCommentOp at h
    split at h
    · split at h
      · injection h with h1
        subst h1
        rfl
      · exact absurd h (by simp)
    · exact absurd h (by simp)
  · intro h
    simp [applyUpdates, sanitizeUpdates, h]
  · intro l h
    simp [applyUpdates, sanitizeUpdates, h]

/-- C8 amended witness: user 2 appends "yo" to a product already holding
user 9's comment; the stored list gains exactly that entry at the end. -/
theorem comments_append_only_except_update_witness :
    (⟨5, "x", none, 0, 3, [⟨9, "hi"⟩, ⟨2, "yo"⟩], []⟩ : Product).comments
      = (⟨5, "x", none, 0, 3, [⟨9, "hi"⟩], []⟩ : Product).comments
          ++ [⟨2, "yo"⟩] :=
  (comments_append_only_except_update ⟨0, 1, [], [5], true, none, 0⟩
    ⟨5, "x", none, 0, 3, [⟨9, "hi"⟩], []⟩ 2 "yo" Emoji.heart {}).1
    ⟨5, "x", none, 0, 3, [⟨9, "hi"⟩, ⟨2, "yo"⟩], []⟩ (by decide)

/-- C9: update-product never changes the owning wishlist reference or the
creator reference — the route deletes both fields from the body before
`findByIdAndUpdate` — even when the body supplies replacement values; at
the store level every product keeps both references. -/
theorem product_refs_immutable (p : Product) (u : ProductUpdates)
    (w : Wishlist) (store : List Product) (a : UserId) (pid : Nat) :
    ((applyUpdates p (sanitizeUpdates u)).wishlist = p.wishlist)
    ∧ ((applyUpdates p (sanitizeUpdates u)).addedBy = p.addedBy)
    ∧ (∀ w' s', updateProductOp w store a pid u = .ok (w', s') →
        List.Forall₂ (fun (q q' : Product) => q'.wishlist = q.wishlist ∧
          q'.addedBy = q.addedBy) store s') := by
  refine ⟨rfl, rfl, ?_⟩
  intro w' s' h
  cases hfind : store.find? (fun q => q.id == pid) with
  | none =>
    simp only [updateProductOp, hfind] at h
    exact absurd h (by simp)
  | some q0 =>
    simp only [updateProductOp, hfind] at h
    by_cases hc : canEditProduct w q0 a = true
    · rw [if_pos hc] at h
      simp only [Except.ok.injEq, Prod.mk.injEq] at h
      obtain ⟨h1, h2⟩ := h
      subst h2
      rw [List.forall₂_map_right_iff]
      apply List.forall₂_same.mpr
      intro q hq
      by_cases hid : (q.id == pid) = true
      · simp [hid]
        exact ⟨rfl, rfl⟩
      · have hid' : (q.id == pid) = false := by simpa using hid
        simp [hid']
    · rw [if_neg hc] at h
      exact absurd h (by simp)

/-- C9 witness: a body supplying wishlist 99 and creator 42 leaves product
7's references (wishlist 0, creator 1) untouched. -/
theorem product_refs_immutable_witness :
    List.Forall₂ (fun (q q' : Product) => q'.wishlist = q.wishlist ∧
        q'.addedBy = q.addedBy)
      [pWithComment] [⟨7, "a", none, 0, 1, [], []⟩] :=
  (product_refs_immutable pWithComment
    { wishlist := some 99, addedBy := some 42, comments := some [] }
    ⟨0, 1, [], [7], true, none, 0⟩ [pWithComment] 1 7).2.2
    ⟨0, 1, [], [7], true, none, 0⟩ [⟨7, "a", none, 0, 1, [], []⟩]
    (by decide)

/-- C10: remove-reaction takes no wishlist at all — the route never loads
one — so it succeeds for every actor, removing exactly that actor's
reactions and keeping everyone else's, with no view-access condition;
add-reaction, by contrast, answers the authorization error whenever the
actor lacks view access. -/
theorem remove_reaction_no_access_check (p : Product) (a : UserId) :
    (removeReactionOp p a = .ok (removeReactionPure p a))
    ∧ (∀ r, r ∈ (removeReactionPure p a).reactions ↔
        (r ∈ p.reactions ∧ r.user ≠ a))
    ∧ (∀ r ∈ (removeReactionPure p a).reactions, r.user ≠ a)
    ∧ (∀ (w : Wishlist) (e : Emoji), hasViewAccess w a = false →
        addReactionOp w p a e = .error .accessDenied) := by
  refine ⟨rfl, ?_, ?_, ?_⟩
  · intro r
    simp [removeReactionPure, List.mem_filter, bne_iff_ne]
  · intro r hr
    exact bne_iff_ne.mp (List.mem_filter.mp hr).2
  · intro w e h
    simp [addReactionOp, h]

/-- C10 witness: actor 2 — not owner, not collaborator, wishlist private —
is denied on add-reaction while remove-reaction (which consults no
wishlist) succeeded for the same actor. -/
theorem remove_reaction_no_access_check_witness :
    addReactionOp ⟨0, 1, [], [5], false, none, 0⟩
      ⟨5, "x", none, 0, 1, [], [⟨1, Emoji.fire⟩]⟩ 2 Emoji.heart
      = .error .accessDenied :=
  (remove_reaction_no_access_check
    ⟨5, "x", none, 0, 1, [], [⟨1, Emoji.fire⟩]⟩ 2).2.2.2
    ⟨0, 1, [], [5], false, none, 0⟩ Emoji.heart (by decide)

end WishlistApp
